import Mathlib

/-!
Shallow embedding of the Thruster core (src/main.ts) over exact real
arithmetic: the Math2d vector/matrix layer (modelled from the spec, since
its source file is not part of src/), the Shape scene-graph update, the
World shape collection, and the Craft flight dynamics.
-/

/-- A 2D vector of real coordinates. Modelled from the spec: the Math2d
`Vector` value type (two scalar coordinates x, y). -/
structure Vec where
  x : ℝ
  y : ℝ

namespace Vec

/-- Modelled from the spec: `Vector.zero()`. -/
def zero : Vec := ⟨0, 0⟩

/-- Modelled from the spec: component-wise addition `a.add(b)`. -/
def add (v w : Vec) : Vec := ⟨v.x + w.x, v.y + w.y⟩

/-- Modelled from the spec: component-wise subtraction `a.sub(b)`. -/
def sub (v w : Vec) : Vec := ⟨v.x - w.x, v.y - w.y⟩

/-- Modelled from the spec: `v.scale(s)`, component-wise multiply by a scalar. -/
def scale (v : Vec) (s : ℝ) : Vec := ⟨v.x * s, v.y * s⟩

/-- Modelled from the spec: `v.magSquared()`, sum of squared components. -/
def magSquared (v : Vec) : ℝ := v.x * v.x + v.y * v.y

/-- Modelled from the spec: `v.normalize()` rescales to unit magnitude, and a
zero-magnitude vector is returned unchanged (the zero-guard policy of §7). -/
noncomputable def normalize (v : Vec) : Vec :=
  if v.magSquared = 0 then v
  else ⟨v.x / Real.sqrt v.magSquared, v.y / Real.sqrt v.magSquared⟩

theorem magSquared_nonneg (v : Vec) : 0 ≤ v.magSquared := by
  have hx := mul_self_nonneg v.x
  have hy := mul_self_nonneg v.y
  unfold magSquared; linarith

theorem magSquared_eq_zero_iff (v : Vec) : v.magSquared = 0 ↔ v = zero := by
  constructor
  · intro h
    have hx := mul_self_nonneg v.x
    have hy := mul_self_nonneg v.y
    have hx0 : v.x * v.x = 0 := by unfold magSquared at h; linarith
    have hy0 : v.y * v.y = 0 := by unfold magSquared at h; linarith
    have : v.x = 0 := by nlinarith
    have : v.y = 0 := by nlinarith
    cases v
    simp_all [zero]
  · intro h; subst h; simp [magSquared, zero]

theorem normalize_magSquared (v : Vec) (h : 0 < v.magSquared) :
    (v.normalize).magSquared = 1 := by
  have hne : v.magSquared ≠ 0 := ne_of_gt h
  have hm : 0 < Real.sqrt v.magSquared := Real.sqrt_pos.mpr h
  unfold normalize
  rw [if_neg hne]
  show v.x / Real.sqrt v.magSquared * (v.x / Real.sqrt v.magSquared) +
      v.y / Real.sqrt v.magSquared * (v.y / Real.sqrt v.magSquared) = 1
  have hs : Real.sqrt v.magSquared * Real.sqrt v.magSquared = v.magSquared :=
    Real.mul_self_sqrt (magSquared_nonneg v)
  field_simp
  rfl

theorem scale_magSquared (v : Vec) (k : ℝ) :
    (v.scale k).magSquared = k * k * v.magSquared := by
  unfold scale magSquared; ring

end Vec

/-- The craft's floor on downward velocity (source: `maxDownSpeed = -.5`). -/
def maxDownSpeed : ℝ := -0.5

/-- The craft's speed cap (source: `maxAirSpeed = .8`). -/
def maxAirSpeed : ℝ := 0.8

/-- Source: `maxAirSpeedSq = maxAirSpeed * maxAirSpeed`. -/
def maxAirSpeedSq : ℝ := maxAirSpeed * maxAirSpeed

/-- First clamp of `Craft.calcVelocity`: if the Y component has fallen below
`maxDownSpeed`, set it to `maxDownSpeed` (source lines 121-123). -/
noncomputable def clampY (v : Vec) : Vec :=
  if v.y < maxDownSpeed then ⟨v.x, maxDownSpeed⟩ else v

/-- Second clamp of `Craft.calcVelocity`: if the squared magnitude exceeds
`maxAirSpeedSq`, normalize and rescale to `maxAirSpeed` (source lines 125-128). -/
noncomputable def capSpeed (v : Vec) : Vec :=
  if v.magSquared > maxAirSpeedSq then (v.normalize).scale maxAirSpeed else v

/-- `Craft.calcVelocity` with the velocity, thrust and gravity made explicit:
`accel = thrust + gravity`, `newVel = vel + accel`, then the Y floor, then the
uniform speed cap (source lines 117-131). -/
noncomputable def calcVelocityG (vel thrust grav : Vec) : Vec :=
  capSpeed (clampY (vel.add (thrust.add grav)))

theorem capSpeed_magSquared_le (v : Vec) :
    (capSpeed v).magSquared ≤ maxAirSpeedSq := by
  unfold capSpeed
  split_ifs with h
  · have hpos : 0 < v.magSquared := by
      have : (0 : ℝ) < maxAirSpeedSq := by norm_num [maxAirSpeedSq, maxAirSpeed]
      linarith
    rw [Vec.scale_magSquared, Vec.normalize_magSquared v hpos]
    simp [maxAirSpeedSq]
  · exact le_of_not_lt h

/-- C1: for every starting velocity, thrust vector and gravity vector, the
velocity returned by `calcVelocity` has squared magnitude at most
`maxAirSpeedSq`; when the clamp branch fires the result has squared magnitude
exactly `maxAirSpeedSq` (it is normalized and rescaled to `maxAirSpeed`), and
otherwise the vector is returned unchanged, already within the cap. -/
theorem calcVelocity_magSquared_le (vel thrust grav : Vec) :
    (calcVelocityG vel thrust grav).magSquared ≤ maxAirSpeedSq ∧
    ((clampY (vel.add (thrust.add grav))).magSquared > maxAirSpeedSq →
      (calcVelocityG vel thrust grav).magSquared = maxAirSpeedSq) ∧
    (¬ (clampY (vel.add (thrust.add grav))).magSquared > maxAirSpeedSq →
      calcVelocityG vel thrust grav = clampY (vel.add (thrust.add grav))) := by
  refine ⟨capSpeed_magSquared_le _, ?_, ?_⟩
  · intro h
    unfold calcVelocityG capSpeed
    rw [if_pos h]
    have hpos : 0 < (clampY (vel.add (thrust.add grav))).magSquared := by
      have : (0 : ℝ) < maxAirSpeedSq := by norm_num [maxAirSpeedSq, maxAirSpeed]
      linarith
    rw [Vec.scale_magSquared, Vec.normalize_magSquared _ hpos]
    simp [maxAirSpeedSq]
  · intro h
    unfold calcVelocityG capSpeed
    rw [if_neg h]

/-- Witness for C1 at a concrete input: velocity (1,0) with no thrust and no
gravity exceeds the cap, so the result's squared magnitude is exactly
`maxAirSpeedSq`. -/
theorem calcVelocity_magSquared_le_witness :
    (calcVelocityG ⟨1, 0⟩ Vec.zero Vec.zero).magSquared = maxAirSpeedSq :=
  (calcVelocity_magSquared_le ⟨1, 0⟩ Vec.zero Vec.zero).2.1 (by
    norm_num [clampY, Vec.add, Vec.zero, Vec.magSquared, maxDownSpeed,
      maxAirSpeedSq, maxAirSpeed])

/-- C2: for every starting velocity, thrust vector and gravity vector, the
velocity returned by `calcVelocity` has Y component at least `maxDownSpeed`,
even when the uniform speed cap runs after the Y floor. -/
theorem calcVelocity_y_ge_maxDownSpeed (vel thrust grav : Vec) :
    maxDownSpeed ≤ (calcVelocityG vel thrust grav).y := by
  unfold calcVelocityG
  set w := clampY (vel.add (thrust.add grav)) with hw
  have hwy : maxDownSpeed ≤ w.y := by
    rw [hw]; unfold clampY
    split_ifs with h
    · exact le_refl _
    · exact le_of_not_lt h
  unfold capSpeed
  split_ifs with h
  · -- the cap fired: magnitude strictly exceeds maxAirSpeed, the rescale
    -- factor is in (0,1), so the Y component moves toward zero
    have hcap : (0 : ℝ) < maxAirSpeedSq := by norm_num [maxAirSpeedSq, maxAirSpeed]
    have hpos : 0 < w.magSquared := lt_trans hcap h
    have hne : w.magSquared ≠ 0 := ne_of_gt hpos
    have hm : 0 < Real.sqrt w.magSquared := Real.sqrt_pos.mpr hpos
    have hmgt : maxAirSpeed < Real.sqrt w.magSquared := by
      have h8 : (maxAirSpeed : ℝ) = Real.sqrt maxAirSpeedSq := by
        rw [maxAirSpeedSq]
        exact (Real.sqrt_mul_self (by norm_num [maxAirSpeed] : (0:ℝ) ≤ maxAirSpeed)).symm
      rw [h8]
      exact Real.sqrt_lt_sqrt (by norm_num [maxAirSpeedSq, maxAirSpeed]) h
    show maxDownSpeed ≤ (Vec.scale (w.normalize) maxAirSpeed).y
    unfold Vec.normalize Vec.scale
    rw [if_neg hne]
    show maxDownSpeed ≤ w.y / Real.sqrt w.magSquared * maxAirSpeed
    rw [div_mul_eq_mul_div, le_div_iff₀ hm]
    rcases le_or_lt 0 w.y with hy | hy
    · have h1 : 0 ≤ w.y * maxAirSpeed := by
        apply mul_nonneg hy; norm_num [maxAirSpeed]
      have h2 : maxDownSpeed * Real.sqrt w.magSquared < 0 := by
        apply mul_neg_of_neg_of_pos _ hm; norm_num [maxDownSpeed]
      linarith
    · -- w.y < 0, and maxDownSpeed ≤ w.y, maxAirSpeed < sqrt
      have h1 : maxDownSpeed * Real.sqrt w.magSquared ≤ maxDownSpeed * maxAirSpeed := by
        rw [maxDownSpeed]
        nlinarith
      have h2 : maxDownSpeed * maxAirSpeed ≤ w.y * maxAirSpeed := by
        apply mul_le_mul_of_nonneg_right hwy; norm_num [maxAirSpeed]
      linarith
  · exact hwy

/-! ## Math2d matrices and the bounce impulse -/

/-- A 2D affine transform (rotation part `a b c d`, translation `tx ty`).
Modelled from the spec: the Math2d `Matrix` type (rotation + translation). -/
structure Mat where
  a : ℝ
  b : ℝ
  c : ℝ
  d : ℝ
  tx : ℝ
  ty : ℝ

namespace Mat

/-- Modelled from the spec: `m.apply(v)`, affine-transform a vector. -/
def apply (m : Mat) (v : Vec) : Vec :=
  ⟨m.a * v.x + m.b * v.y + m.tx, m.c * v.x + m.d * v.y + m.ty⟩

/-- Modelled from the spec: `Matrix.identity()`. -/
def identity : Mat := ⟨1, 0, 0, 1, 0, 0⟩

/-- Modelled from the spec: `m1.mul(m2)` composes the rotation parts and
preserves the translation component of the receiver. -/
def mul (m n : Mat) : Mat :=
  ⟨m.a * n.a + m.b * n.c, m.a * n.b + m.b * n.d,
   m.c * n.a + m.d * n.c, m.c * n.b + m.d * n.d,
   m.tx, m.ty⟩

end Mat

/-- Modelled from the spec: `createRotationMatrixRadians(angle)`. -/
noncomputable def createRotationMatrixRadians (t : ℝ) : Mat :=
  ⟨Real.cos t, -Real.sin t, Real.sin t, Real.cos t, 0, 0⟩

/-- Modelled from the spec: `createRotationMatrixDegrees(angle)`: degrees are
converted to radians. -/
noncomputable def createRotationMatrixDegrees (d : ℝ) : Mat :=
  createRotationMatrixRadians (d * Real.pi / 180)

/-- Modelled from the spec: `createRotationAndTranslationMatrixRadians`. -/
noncomputable def createRotationAndTranslationMatrixRadians (t : ℝ) (v : Vec) : Mat :=
  ⟨Real.cos t, -Real.sin t, Real.sin t, Real.cos t, v.x, v.y⟩

/-- Source: `world.gravity = Vector.create(0, -.02)` (line 7). -/
def worldGravity : Vec := ⟨0, -0.02⟩

/-- Source: `world.toScreen`, a rotation by pi radians followed by translation
to the screen center (80, 60) (lines 8-10). -/
noncomputable def worldToScreen : Mat :=
  createRotationAndTranslationMatrixRadians Real.pi ⟨80, 60⟩

/-- X component of the bounce impulse before normalization: the source's two
`setX` branches on the predicted position (lines 136-140). -/
noncomputable def bounceX (mp : Vec) : ℝ :=
  if mp.x > 76 then -maxAirSpeed else if mp.x < -76 then maxAirSpeed else 0

/-- Y component of the bounce impulse before normalization: the source's two
`setY` branches on the predicted position (lines 141-145). -/
noncomputable def bounceY (mp : Vec) : ℝ :=
  if mp.y > 56 then -maxAirSpeed else if mp.y < -56 then maxAirSpeed else 0

/-- `Craft.bounceOffSides(pos, vel)`: predict `maybePos = pos + vel`, build the
per-axis impulse, then normalize and rescale to `maxAirSpeed` (lines 133-149). -/
noncomputable def bounceOffSidesG (pos vel : Vec) : Vec :=
  ((⟨bounceX (pos.add vel), bounceY (pos.add vel)⟩ : Vec).normalize).scale maxAirSpeed

theorem normScale_x_neg (v : Vec) (h : 0 < v.magSquared) (hx : v.x < 0) :
    ((v.normalize).scale maxAirSpeed).x < 0 := by
  have hm : 0 < Real.sqrt v.magSquared := Real.sqrt_pos.mpr h
  unfold Vec.normalize Vec.scale
  rw [if_neg (ne_of_gt h)]
  show v.x / Real.sqrt v.magSquared * maxAirSpeed < 0
  apply mul_neg_of_neg_of_pos (div_neg_of_neg_of_pos hx hm)
  norm_num [maxAirSpeed]

theorem normScale_x_pos (v : Vec) (h : 0 < v.magSquared) (hx : 0 < v.x) :
    0 < ((v.normalize).scale maxAirSpeed).x := by
  have hm : 0 < Real.sqrt v.magSquared := Real.sqrt_pos.mpr h
  unfold Vec.normalize Vec.scale
  rw [if_neg (ne_of_gt h)]
  show 0 < v.x / Real.sqrt v.magSquared * maxAirSpeed
  apply mul_pos (div_pos hx hm)
  norm_num [maxAirSpeed]

theorem normScale_y_neg (v : Vec) (h : 0 < v.magSquared) (hy : v.y < 0) :
    ((v.normalize).scale maxAirSpeed).y < 0 := by
  have hm : 0 < Real.sqrt v.magSquared := Real.sqrt_pos.mpr h
  unfold Vec.normalize Vec.scale
  rw [if_neg (ne_of_gt h)]
  show v.y / Real.sqrt v.magSquared * maxAirSpeed < 0
  apply mul_neg_of_neg_of_pos (div_neg_of_neg_of_pos hy hm)
  norm_num [maxAirSpeed]

theorem normScale_y_pos (v : Vec) (h : 0 < v.magSquared) (hy : 0 < v.y) :
    0 < ((v.normalize).scale maxAirSpeed).y := by
  have hm : 0 < Real.sqrt v.magSquared := Real.sqrt_pos.mpr h
  unfold Vec.normalize Vec.scale
  rw [if_neg (ne_of_gt h)]
  show 0 < v.y / Real.sqrt v.magSquared * maxAirSpeed
  apply mul_pos (div_pos hy hm)
  norm_num [maxAirSpeed]

theorem normScale_zero_or_cap (v : Vec) :
    (v.normalize).scale maxAirSpeed = Vec.zero ∨
    ((v.normalize).scale maxAirSpeed).magSquared = maxAirSpeedSq := by
  rcases eq_or_lt_of_le (Vec.magSquared_nonneg v) with h | h
  · left
    have hz : v = Vec.zero := (Vec.magSquared_eq_zero_iff v).mp h.symm
    subst hz
    simp [Vec.normalize, Vec.scale, Vec.zero, Vec.magSquared]
  · right
    rw [Vec.scale_magSquared, Vec.normalize_magSquared v h]
    simp [maxAirSpeedSq]

theorem bounceX_magSquared_pos (mp : Vec) (h : bounceX mp ≠ 0) :
    0 < (Vec.magSquared ⟨bounceX mp, bounceY mp⟩) := by
  have hx : 0 < bounceX mp * bounceX mp := by
    rcases lt_or_gt_of_ne h with h' | h'
    · exact mul_pos_of_neg_of_neg h' h'
    · exact mul_pos h' h'
  have hy : 0 ≤ bounceY mp * bounceY mp := mul_self_nonneg _
  show 0 < bounceX mp * bounceX mp + bounceY mp * bounceY mp
  linarith

theorem bounceY_magSquared_pos (mp : Vec) (h : bounceY mp ≠ 0) :
    0 < (Vec.magSquared ⟨bounceX mp, bounceY mp⟩) := by
  have hy : 0 < bounceY mp * bounceY mp := by
    rcases lt_or_gt_of_ne h with h' | h'
    · exact mul_pos_of_neg_of_neg h' h'
    · exact mul_pos h' h'
  have hx : 0 ≤ bounceX mp * bounceX mp := mul_self_nonneg _
  show 0 < bounceX mp * bounceX mp + bounceY mp * bounceY mp
  linarith

/-- C4: for every position and velocity, the impulse from `bounceOffSides`
opposes each exceeded bound (negative X for predicted X beyond +76,
symmetrically for the other three bounds), is exactly the zero vector when no
bound is exceeded (the zero-guard of normalize avoids a division by zero), and
has squared magnitude `maxAirSpeedSq` whenever it is nonzero. -/
theorem bounceOffSides_spec (pos vel : Vec) :
    ((pos.add vel).x > 76 → (bounceOffSidesG pos vel).x < 0) ∧
    ((pos.add vel).x < -76 → 0 < (bounceOffSidesG pos vel).x) ∧
    ((pos.add vel).y > 56 → (bounceOffSidesG pos vel).y < 0) ∧
    ((pos.add vel).y < -56 → 0 < (bounceOffSidesG pos vel).y) ∧
    (¬ (pos.add vel).x > 76 → ¬ (pos.add vel).x < -76 →
      ¬ (pos.add vel).y > 56 → ¬ (pos.add vel).y < -56 →
      bounceOffSidesG pos vel = Vec.zero) ∧
    (bounceOffSidesG pos vel ≠ Vec.zero →
      (bounceOffSidesG pos vel).magSquared = maxAirSpeedSq) := by
  refine ⟨?_, ?_, ?_, ?_, ?_, ?_⟩
  · intro h
    have hx : bounceX (pos.add vel) = -maxAirSpeed := by rw [bounceX, if_pos h]
    have hxneg : bounceX (pos.add vel) < 0 := by rw [hx]; norm_num [maxAirSpeed]
    exact normScale_x_neg _ (bounceX_magSquared_pos _ (ne_of_lt hxneg)) hxneg
  · intro h
    have hnot : ¬ (pos.add vel).x > 76 := by linarith
    have hx : bounceX (pos.add vel) = maxAirSpeed := by
      rw [bounceX, if_neg hnot, if_pos h]
    have hxpos : 0 < bounceX (pos.add vel) := by rw [hx]; norm_num [maxAirSpeed]
    exact normScale_x_pos _ (bounceX_magSquared_pos _ (ne_of_gt hxpos)) hxpos
  · intro h
    have hy : bounceY (pos.add vel) = -maxAirSpeed := by rw [bounceY, if_pos h]
    have hyneg : bounceY (pos.add vel) < 0 := by rw [hy]; norm_num [maxAirSpeed]
    exact normScale_y_neg _ (bounceY_magSquared_pos _ (ne_of_lt hyneg)) hyneg
  · intro h
    have hnot : ¬ (pos.add vel).y > 56 := by linarith
    have hy : bounceY (pos.add vel) = maxAirSpeed := by
      rw [bounceY, if_neg hnot, if_pos h]
    have hypos : 0 < bounceY (pos.add vel) := by rw [hy]; norm_num [maxAirSpeed]
    exact normScale_y_pos _ (bounceY_magSquared_pos _ (ne_of_gt hypos)) hypos
  · intro h1 h2 h3 h4
    have hx : bounceX (pos.add vel) = 0 := by rw [bounceX, if_neg h1, if_neg h2]
    have hy : bounceY (pos.add vel) = 0 := by rw [bounceY, if_neg h3, if_neg h4]
    unfold bounceOffSidesG
    rw [hx, hy]
    simp [Vec.normalize, Vec.scale, Vec.zero, Vec.magSquared]
  · intro hne
    rcases normScale_zero_or_cap ⟨bounceX (pos.add vel), bounceY (pos.add vel)⟩ with h | h
    · exact absurd h hne
    · exact h

/-- Witness for C4 at a concrete input: predicted position (80, 0) exceeds the
+76 bound, so the impulse's X component is negative. -/
theorem bounceOffSides_spec_witness :
    (bounceOffSidesG ⟨80, 0⟩ ⟨0, 0⟩).x < 0 :=
  (bounceOffSides_spec ⟨80, 0⟩ ⟨0, 0⟩).1 (by norm_num [Vec.add])

/-! ## Shape: scene-graph state and the update pass -/

/-- The `Shape` fields (source lines 38-50): local vertices, the cached
screen-space render points, the world position, the rigid transform, and the
scene index within the World's collection. -/
structure ShapeS where
  points : List Vec
  renderPoints : List Vec
  worldPos : Vec
  xform : Mat
  sceneIndex : Int

/-- One render point: the shape's own transform, then the `worldPos`
translation, then the World screen transform (source lines 54-56). -/
noncomputable def renderPoint (xform : Mat) (worldPos : Vec) (p : Vec) : Vec :=
  worldToScreen.apply ((xform.apply p).add worldPos)

/-- `Shape.update` as written in the source (lines 52-59): the loop runs for
the HARDCODED count 4, writing render points 0..3 only; cache entries beyond
index 3 are left untouched. A vertex index beyond `points` reads the default
(the source would read `undefined`). -/
noncomputable def shapeUpdate (s : ShapeS) : ShapeS :=
  { s with renderPoints :=
      (List.range 4).map (fun i => renderPoint s.xform s.worldPos (s.points.getD i Vec.zero))
      ++ s.renderPoints.drop 4 }

/-- Modelled from the spec: the `Shape.update` the spec requires (§4.4/§9),
which processes EVERY vertex of the local sequence and stores a render point
at every corresponding index. -/
noncomputable def shapeUpdateSpec (s : ShapeS) : ShapeS :=
  { s with renderPoints := s.points.map (renderPoint s.xform s.worldPos) }

/-- A shape with five local vertices, as the spec's arena allows. -/
noncomputable def penta : ShapeS :=
  { points := [⟨0, 0⟩, ⟨1, 0⟩, ⟨1, 1⟩, ⟨0, 1⟩, ⟨0, 2⟩]
    renderPoints := []
    worldPos := Vec.zero
    xform := Mat.identity
    sceneIndex := -1 }

/-- C3 (code bug): on a shape with five local vertices, the source's
`Shape.update` writes only four render points (its loop bound is the literal
4), while the spec-mandated update produces one render point per vertex. -/
theorem shapeUpdate_fixed_four_bug :
    (shapeUpdate penta).renderPoints.length = 4 ∧
    penta.points.length = 5 ∧
    (shapeUpdateSpec penta).renderPoints.length = 5 := by
  refine ⟨?_, ?_, ?_⟩ <;> simp [shapeUpdate, shapeUpdateSpec, penta]

/-! ## World: the shape collection, add and remove -/

/-- The part of a shape the World collection logic sees: an identifier for the
shape object and its mutable `sceneIndex` field. -/
structure SceneShape where
  id : Nat
  sceneIndex : Int
deriving DecidableEq

/-- `World.add(s)` (source lines 14-17): set `s.sceneIndex` to the current
length, insert at that index (an append). Returns the new collection and the
mutated shape. -/
def worldAdd (shapes : List SceneShape) (s : SceneShape) : List SceneShape × SceneShape :=
  let s' : SceneShape := { s with sceneIndex := (shapes.length : Int) }
  (shapes ++ [s'], s')

/-- `World.remove(s)` (source lines 19-22): remove at the shape's recorded
scene index, set the removed shape's index to -1. No other shape's
`sceneIndex` is touched. -/
def worldRemove (shapes : List SceneShape) (s : SceneShape) : List SceneShape × SceneShape :=
  (shapes.eraseIdx s.sceneIndex.toNat, { s with sceneIndex := -1 })

/-- C5 (code bug): with shapes s0 (index 0) and s1 (index 1) in the world,
removing s0 leaves s1 at position 0 of the collection while its `sceneIndex`
is still 1 — the code never renumbers the shapes after the removed one. The
removed shape does get the -1 sentinel. -/
theorem worldRemove_renumber_bug :
    (worldRemove [⟨0, 0⟩, ⟨1, 1⟩] ⟨0, 0⟩).1 = [⟨1, 1⟩] ∧
    ((worldRemove [⟨0, 0⟩, ⟨1, 1⟩] ⟨0, 0⟩).1.getD 0 ⟨0, 0⟩).sceneIndex ≠ 0 ∧
    (worldRemove [⟨0, 0⟩, ⟨1, 1⟩] ⟨0, 0⟩).2.sceneIndex = -1 := by
  refine ⟨?_, ?_, ?_⟩ <;> decide

theorem eraseIdx_append_singleton {α : Type} (l : List α) (x : α) :
    (l ++ [x]).eraseIdx l.length = l := by
  induction l with
  | nil => rfl
  | cons a as ih => simp [List.eraseIdx, ih]

/-- C6: adding a shape not already in the collection and then immediately
removing it restores the collection exactly — the same shapes in the same
order, so every remaining shape's `sceneIndex` is unchanged. -/
theorem worldAdd_worldRemove_roundtrip (w : List SceneShape) (s : SceneShape)
    (h : s ∉ w) :
    (worldRemove (worldAdd w s).1 (worldAdd w s).2).1 = w := by
  unfold worldAdd worldRemove
  simp only [Int.toNat_ofNat]
  exact eraseIdx_append_singleton w _

/-- Witness for C6 at a concrete input: adding the fresh shape ⟨1, -1⟩ to the
one-element collection [⟨0, 0⟩] and removing it again restores [⟨0, 0⟩]. -/
theorem worldAdd_worldRemove_roundtrip_witness :
    (worldRemove (worldAdd [⟨0, 0⟩] ⟨1, -1⟩).1 (worldAdd [⟨0, 0⟩] ⟨1, -1⟩).2).1
      = [⟨0, 0⟩] :=
  worldAdd_worldRemove_roundtrip [⟨0, 0⟩] ⟨1, -1⟩ (by decide)

/-! ## Shape construction and the render precondition -/

/-- A freshly constructed shape (source lines 45-50 plus the subclass
assigning `points`): the render-point cache starts EMPTY, the world position
is zero, the transform is the identity and the scene index is -1. -/
noncomputable def shapeNew (pts : List Vec) : ShapeS :=
  { points := pts
    renderPoints := []
    worldPos := Vec.zero
    xform := Mat.identity
    sceneIndex := -1 }

/-- The render-point indices `Shape.render` reads (source lines 61-66):
`drawLine(j, j+1)` for j = 0 .. points.length-2, then the closing
`drawLine(points.length-1, 0)`. -/
def renderAccesses (s : ShapeS) : List Nat :=
  ((List.range (s.points.length - 1)).flatMap (fun j => [j, j + 1]))
    ++ [s.points.length - 1, 0]

/-- C10: a freshly constructed shape has an empty render-point cache, yet
`render` reads the cache at index 0 (among indices 0 .. points.length-1), so
every access of a render before the first update is to an entry that was
never written (index ≥ cache length). -/
theorem shapeNew_render_unwritten (pts : List Vec) (h : 0 < pts.length) :
    (shapeNew pts).renderPoints = [] ∧
    0 ∈ renderAccesses (shapeNew pts) ∧
    ∀ j ∈ renderAccesses (shapeNew pts),
      (shapeNew pts).renderPoints.length ≤ j := by
  refine ⟨rfl, ?_, ?_⟩
  · simp [renderAccesses]
  · intro j _
    simp [shapeNew]

/-- Witness for C10 at a concrete input: a triangle. -/
theorem shapeNew_render_unwritten_witness :
    (shapeNew [⟨0, 0⟩, ⟨1, 0⟩, ⟨0, 1⟩]).renderPoints = [] ∧
    0 ∈ renderAccesses (shapeNew [⟨0, 0⟩, ⟨1, 0⟩, ⟨0, 1⟩]) ∧
    ∀ j ∈ renderAccesses (shapeNew [⟨0, 0⟩, ⟨1, 0⟩, ⟨0, 1⟩]),
      (shapeNew [⟨0, 0⟩, ⟨1, 0⟩, ⟨0, 1⟩]).renderPoints.length ≤ j :=
  shapeNew_render_unwritten [⟨0, 0⟩, ⟨1, 0⟩, ⟨0, 1⟩] (by simp)

/-! ## Craft: flight dynamics, input, thrust edge flags -/

/-- The input the craft polls each tick: the thrust button A and the
left/right steering buttons (source lines 162-174). -/
structure Input where
  a : Bool
  left : Bool
  right : Bool

/-- The externally visible effect calls of `updateEffects` (source lines
151-160): starting the trail effect, clearing the particles. -/
inductive Effect where
  | start
  | stop
deriving DecidableEq, BEq

/-- The `Craft` fields: the inherited `Shape` state plus heading, velocity,
thrust and the three thrust-state booleans (source lines 76-115). -/
structure CraftS where
  points : List Vec
  renderPoints : List Vec
  worldPos : Vec
  xform : Mat
  sceneIndex : Int
  heading : Vec
  vel : Vec
  thrust : Vec
  thrusting : Bool
  beganThrusting : Bool
  stoppedThrusting : Bool

/-- `Craft.applyThrust` (source lines 180-187): set the began-thrusting edge
flag if not already thrusting, set thrust to the heading scaled by 0.08, and
enter THRUSTING. -/
noncomputable def applyThrust (c : CraftS) : CraftS :=
  { c with
    beganThrusting := if c.thrusting then c.beganThrusting else true
    thrust := c.heading.scale 0.08
    thrusting := true }

/-- `Craft.releaseThrust` (source lines 189-195): set the stopped-thrusting
edge flag if currently thrusting, decay the thrust by the factor 0.6, and
enter COASTING. -/
noncomputable def releaseThrust (c : CraftS) : CraftS :=
  { c with
    stoppedThrusting := if c.thrusting then true else c.stoppedThrusting
    thrust := c.thrust.scale 0.6
    thrusting := false }

/-- `Craft.handleInput` (source lines 162-178): apply or release thrust from
the A button, then compose the steering rotation (±1.5 degrees or 0) into the
shape transform. -/
noncomputable def handleInput (inp : Input) (c : CraftS) : CraftS :=
  let c' := if inp.a then applyThrust c else releaseThrust c
  let sign : ℝ := if inp.left then -1 else if inp.right then 1 else 0
  { c' with xform := c'.xform.mul (createRotationMatrixDegrees (sign * 1.5)) }

/-- `Craft.updateEffects` (source lines 151-160): fire the start-thrust effect
if the began flag is set, else the stop-thrust effect if the stopped flag is
set, then clear both flags. -/
noncomputable def updateEffects (c : CraftS) : CraftS × List Effect :=
  ({ c with beganThrusting := false, stoppedThrusting := false },
   if c.beganThrusting then [Effect.start]
   else if c.stoppedThrusting then [Effect.stop]
   else [])

/-- `Craft.calcVelocity` (source lines 117-131) on the craft state, with the
world's gravity. -/
noncomputable def calcVelocity (c : CraftS) : Vec :=
  calcVelocityG c.vel c.thrust worldGravity

/-- The inherited `Shape.update` (`super.update()`, source line 198) on the
craft's own fields. -/
noncomputable def craftShapeUpdate (c : CraftS) : CraftS :=
  { c with renderPoints :=
      (List.range 4).map (fun i => renderPoint c.xform c.worldPos (c.points.getD i Vec.zero))
      ++ c.renderPoints.drop 4 }

/-- `Craft.update` (source lines 197-212): refresh render points, handle
input, integrate and clamp the velocity, add the bounce impulse, advance the
position, fire pending effects, commit velocity and position, and re-derive
the heading from the transform applied to (0, 1). Returns the new state and
the effects fired this tick. -/
noncomputable def craftUpdate (inp : Input) (c : CraftS) : CraftS × List Effect :=
  let c0 := craftShapeUpdate c
  let c1 := handleInput inp c0
  let pos := c1.worldPos
  let nv := calcVelocity c1
  let imp := bounceOffSidesG pos nv
  let nv2 := nv.add imp
  let pos2 := pos.add nv2
  let ce := updateEffects c1
  ({ ce.1 with vel := nv2, worldPos := pos2, heading := ce.1.xform.apply ⟨0, 1⟩ }, ce.2)

/-- C7: after every `Craft.update`, the heading field equals the craft's
current shape transform applied to the canonical forward vector (0, 1) — the
heading is re-derived from the transform each tick. -/
theorem craftUpdate_heading_consistent (inp : Input) (c : CraftS) :
    ((craftUpdate inp c).1).heading = ((craftUpdate inp c).1).xform.apply ⟨0, 1⟩ :=
  rfl

/-- Iterate `craftUpdate` over a list of per-tick inputs, collecting every
effect fired, in order. -/
noncomputable def craftRun (c : CraftS) : List Input → CraftS × List Effect
  | [] => (c, [])
  | i :: is =>
    let r := craftUpdate i c
    let rest := craftRun r.1 is
    (rest.1, r.2 ++ rest.2)

/-- Number of COASTING→THRUSTING transitions in a mode trace that starts in
mode `b` and then takes the listed values. -/
def risingEdges : Bool → List Bool → Nat
  | _, [] => 0
  | b, x :: xs => (if b = false ∧ x = true then 1 else 0) + risingEdges x xs

/-- Number of THRUSTING→COASTING transitions in a mode trace that starts in
mode `b` and then takes the listed values. -/
def fallingEdges : Bool → List Bool → Nat
  | _, [] => 0
  | b, x :: xs => (if b = true ∧ x = false then 1 else 0) + fallingEdges x xs

theorem craftUpdate_thrusting (i : Input) (c : CraftS) :
    ((craftUpdate i c).1).thrusting = i.a := by
  cases hi : i.a <;>
    simp [craftUpdate, handleInput, applyThrust, releaseThrust, updateEffects,
      craftShapeUpdate, hi]

theorem craftUpdate_beganThrusting (i : Input) (c : CraftS) :
    ((craftUpdate i c).1).beganThrusting = false :=
  rfl

theorem craftUpdate_stoppedThrusting (i : Input) (c : CraftS) :
    ((craftUpdate i c).1).stoppedThrusting = false :=
  rfl

theorem craftUpdate_events (i : Input) (c : CraftS)
    (hb : c.beganThrusting = false) (hs : c.stoppedThrusting = false) :
    (craftUpdate i c).2 =
      if c.thrusting then (if i.a then [] else [Effect.stop])
      else (if i.a then [Effect.start] else []) := by
  cases hi : i.a <;> cases ht : c.thrusting <;>
    simp [craftUpdate, handleInput, applyThrust, releaseThrust, updateEffects,
      craftShapeUpdate, hi, ht, hb, hs]

/-- C8: across any sequence of ticks with arbitrary thrust-button input,
starting from a state with both edge flags clear, the start-thrust effect
fires exactly once per COASTING→THRUSTING transition and the stop-thrust
effect exactly once per THRUSTING→COASTING transition of the mode trace, no
matter how many consecutive ticks either mode persists. -/
theorem craftRun_edge_events (is : List Input) (c : CraftS)
    (hb : c.beganThrusting = false) (hs : c.stoppedThrusting = false) :
    ((craftRun c is).2.count Effect.start
        = risingEdges c.thrusting (is.map (fun i => i.a))) ∧
    ((craftRun c is).2.count Effect.stop
        = fallingEdges c.thrusting (is.map (fun i => i.a))) := by
  induction is generalizing c with
  | nil => simp [craftRun, risingEdges, fallingEdges]
  | cons i is ih =>
    obtain ⟨ih1, ih2⟩ :=
      ih (craftUpdate i c).1 (craftUpdate_beganThrusting i c)
        (craftUpdate_stoppedThrusting i c)
    rw [craftUpdate_thrusting] at ih1 ih2
    have hrun : (craftRun c (i :: is)).2
        = (craftUpdate i c).2 ++ (craftRun (craftUpdate i c).1 is).2 := rfl
    rw [craftUpdate_events i c hb hs] at hrun
    constructor
    · rw [hrun, List.count_append, ih1]
      cases hi : i.a <;> cases ht : c.thrusting <;>
        simp [risingEdges, hi, ht] <;> decide
    · rw [hrun, List.count_append, ih2]
      cases hi : i.a <;> cases ht : c.thrusting <;>
        simp [fallingEdges, hi, ht] <;> decide

/-- The craft as constructed (source lines 93-115): the four local vertices,
empty render cache, zero position and velocity, identity transform, heading
(0, 1), zero thrust, all thrust flags false. -/
noncomputable def craftInit : CraftS :=
  { points := [⟨0, 8⟩, ⟨4, 0⟩, ⟨0, -2⟩, ⟨-4, 0⟩]
    renderPoints := []
    worldPos := Vec.zero
    xform := Mat.identity
    sceneIndex := -1
    heading := ⟨0, 1⟩
    vel := Vec.zero
    thrust := Vec.zero
    thrusting := false
    beganThrusting := false
    stoppedThrusting := false }

/-- One tick of input with the thrust button held and no steering. -/
def inpThrust : Input := ⟨true, false, false⟩

/-- One tick of input with no buttons pressed. -/
def inpCoast : Input := ⟨false, false, false⟩

/-- Witness for C8 at a concrete run: holding thrust for two ticks and
releasing for one fires the start effect once and the stop effect once. -/
theorem craftRun_edge_events_witness :
    ((craftRun craftInit [inpThrust, inpThrust, inpCoast]).2.count Effect.start = 1) ∧
    ((craftRun craftInit [inpThrust, inpThrust, inpCoast]).2.count Effect.stop = 1) := by
  obtain ⟨h1, h2⟩ :=
    craftRun_edge_events [inpThrust, inpThrust, inpCoast] craftInit rfl rfl
  rw [h1, h2]
  constructor <;> decide

/-- C9: scenario — craft at worldPos (0,0), heading (0,1), velocity (0,0),
thrust held for one tick, gravity (0,-0.02), thrust magnitude 0.08: the thrust
set this tick is (0, 0.08); the integrated velocity before any clamp is
(0, 0.06); neither clamp changes it; the bounce impulse is the zero vector;
and the committed velocity and position after the tick are both (0, 0.06). -/
theorem craftUpdate_thrust_tick_scenario :
    (handleInput inpThrust (craftShapeUpdate craftInit)).thrust = (⟨0, 0.08⟩ : Vec) ∧
    craftInit.vel.add ((⟨0, 0.08⟩ : Vec).add worldGravity) = (⟨0, 0.06⟩ : Vec) ∧
    calcVelocityG craftInit.vel ⟨0, 0.08⟩ worldGravity = (⟨0, 0.06⟩ : Vec) ∧
    bounceOffSidesG craftInit.worldPos ⟨0, 0.06⟩ = Vec.zero ∧
    ((craftUpdate inpThrust craftInit).1).vel = (⟨0, 0.06⟩ : Vec) ∧
    ((craftUpdate inpThrust craftInit).1).worldPos = (⟨0, 0.06⟩ : Vec) := by
  have hthrust :
      (handleInput inpThrust (craftShapeUpdate craftInit)).thrust = (⟨0, 0.08⟩ : Vec) := by
    norm_num [handleInput, inpThrust, applyThrust, craftShapeUpdate, craftInit,
      Vec.scale]
  have hraw : craftInit.vel.add ((⟨0, 0.08⟩ : Vec).add worldGravity) = (⟨0, 0.06⟩ : Vec) := by
    norm_num [craftInit, Vec.zero, Vec.add, worldGravity]
  have hcalc : calcVelocityG craftInit.vel ⟨0, 0.08⟩ worldGravity = (⟨0, 0.06⟩ : Vec) := by
    norm_num [calcVelocityG, craftInit, Vec.zero, Vec.add, worldGravity, clampY,
      capSpeed, Vec.magSquared, maxDownSpeed, maxAirSpeedSq, maxAirSpeed]
  have hbounce : bounceOffSidesG craftInit.worldPos ⟨0, 0.06⟩ = Vec.zero := by
    norm_num [bounceOffSidesG, craftInit, Vec.zero, Vec.add, bounceX, bounceY,
      Vec.normalize, Vec.scale, Vec.magSquared]
  have hvel : ((craftUpdate inpThrust craftInit).1).vel = (⟨0, 0.06⟩ : Vec) := by
    show (calcVelocity (handleInput inpThrust (craftShapeUpdate craftInit))).add
        (bounceOffSidesG (handleInput inpThrust (craftShapeUpdate craftInit)).worldPos
          (calcVelocity (handleInput inpThrust (craftShapeUpdate craftInit))))
        = (⟨0, 0.06⟩ : Vec)
    have hw : (handleInput inpThrust (craftShapeUpdate craftInit)).worldPos
        = craftInit.worldPos := rfl
    have hv : (handleInput inpThrust (craftShapeUpdate craftInit)).vel
        = craftInit.vel := rfl
    have hc : calcVelocity (handleInput inpThrust (craftShapeUpdate craftInit))
        = (⟨0, 0.06⟩ : Vec) := by
      unfold calcVelocity
      rw [hthrust, hv, hcalc]
    rw [hc, hw, hbounce]
    norm_num [Vec.add, Vec.zero]
  have hpos : ((craftUpdate inpThrust craftInit).1).worldPos = (⟨0, 0.06⟩ : Vec) := by
    show (handleInput inpThrust (craftShapeUpdate craftInit)).worldPos.add
        ((calcVelocity (handleInput inpThrust (craftShapeUpdate craftInit))).add
          (bounceOffSidesG (handleInput inpThrust (craftShapeUpdate craftInit)).worldPos
            (calcVelocity (handleInput inpThrust (craftShapeUpdate craftInit)))))
        = (⟨0, 0.06⟩ : Vec)
    have hw : (handleInput inpThrust (craftShapeUpdate craftInit)).worldPos
        = craftInit.worldPos := rfl
    have hv : (handleInput inpThrust (craftShapeUpdate craftInit)).vel
        = craftInit.vel := rfl
    have hc : calcVelocity (handleInput inpThrust (craftShapeUpdate craftInit))
        = (⟨0, 0.06⟩ : Vec) := by
      unfold calcVelocity
      rw [hthrust, hv, hcalc]
    rw [hc, hw, hbounce]
    norm_num [Vec.add, Vec.zero, craftInit]
  exact ⟨hthrust, hraw, hcalc, hbounce, hvel, hpos⟩
